import Mathlib

/-!
Shallow embedding of the VBQ (vbinseq) storage engine, translated from the
Rust sources of the repository: src/header.rs (file and block header codecs),
src/error.rs (the error taxonomy and the index mismatch predicate),
src/writer.rs (the block writer and the VBinseqWriter front-end), and
src/reader.rs (the record block decoder, its iterator and the mmap reader).

Modelling conventions.  A byte is a natural number below 256 and a byte
buffer is a list of naturals; a 64-bit field is serialized through its low
eight bytes, which realizes the u64 truncation of the source.  Fallible
operations return Except; a Rust slice index that would be out of range (a
panic in the source) is modelled by the dedicated error SliceOutOfRange and
an unwrap of None by UnwrapNone.  Two collaborators of the repository are
external crates, not code of this repository: the zstd codec is passed
around as an explicit function parameter (it is never invoked on the
uncompressed paths the theorems exercise), and the bitnuc 2-bit packer is
modelled from the specification's reference description (bases A, C, G, T
map to 2-bit values 0..3, 32 bases per 64-bit word, first base in the
low-order bits, any other byte fails).  The invalid-nucleotide policy with
its seeded PRNG is abstracted into a pure function parameter: error means
fail the write, none means skip the record, some gives the corrected bytes.
-/

namespace VBinseq

/-- Read a little-endian unsigned integer of `n` bytes at offset `off`;
bytes beyond the end of the buffer read as zero (the source only ever reads
in range). -/
def leRead (bytes : List Nat) (off : Nat) : Nat → Nat
  | 0 => 0
  | n + 1 => bytes.getD off 0 + 256 * leRead bytes (off + 1) n

/-- Serialize the low `n` bytes of `x` in little-endian order, as
byteorder's write_uXX does for an `n`-byte machine integer. -/
def leWrite (x : Nat) : Nat → List Nat
  | 0 => []
  | n + 1 => x % 256 :: leWrite (x / 256) n

/-- Magic number of the file header, ASCII VSEQ (src/header.rs). -/
def MAGIC : Nat := 0x51455356

/-- Magic number of a block header, ASCII BLOCKSEQ (src/header.rs). -/
def BLOCK_MAGIC : Nat := 0x5145534B434F4C42

/-- Current format version (src/header.rs). -/
def FORMAT : Nat := 1

/-- Reserved bytes of the file header, filled with 0x2A (src/header.rs). -/
def RESERVED_BYTES : List Nat := List.replicate 16 42

/-- Reserved bytes of a block header (src/header.rs). -/
def RESERVED_BYTES_BLOCK : List Nat := List.replicate 12 42

/-- File header of a VBQ file (struct VBinseqHeader, src/header.rs). -/
structure VBinseqHeader where
  magic : Nat
  format : Nat
  block : Nat
  qual : Bool
  compressed : Bool
  paired : Bool
  reserved : List Nat
deriving DecidableEq

/-- VBinseqHeader::with_capacity (src/header.rs). -/
def VBinseqHeader.with_capacity (block : Nat) (qual compressed paired : Bool) :
    VBinseqHeader :=
  { magic := MAGIC, format := FORMAT, block, qual, compressed, paired,
    reserved := RESERVED_BYTES }

/-- Default block size, 128 KiB (src/header.rs). -/
def BLOCK_SIZE : Nat := 128 * 1024

/-- VBinseqHeader::new (src/header.rs). -/
def VBinseqHeader.new (qual compressed paired : Bool) : VBinseqHeader :=
  VBinseqHeader.with_capacity BLOCK_SIZE qual compressed paired

/-- Header parse errors (enum HeaderError, src/error.rs). -/
inductive HeaderError where
  | InvalidMagicNumber (magic : Nat)
  | InvalidFormatVersion (format : Nat)
  | InvalidReservedBytes
deriving DecidableEq

/-- Write errors (enum WriteError, src/error.rs). -/
inductive WriteError where
  | QualityFlagSet
  | PairedFlagSet
  | QualityFlagNotSet
  | PairedFlagNotSet
  | RecordSizeExceedsMaximumBlockSize (record_size block_size : Nat)
  | InvalidNucleotideSequence
  | MissingHeader
  | IncompatibleBlockSizes (expected found : Nat)
  | IncompatibleHeaders (expected found : VBinseqHeader)
deriving DecidableEq

/-- Read errors (enum ReadError, src/error.rs).  The second field of
InvalidBlockMagicNumber is documented in the source as the position in the
file where the bad magic was found. -/
inductive ReadError where
  | InvalidFileType
  | InvalidBlockMagicNumber (magic pos : Nat)
  | UnexpectedEndOfFile (pos : Nat)
deriving DecidableEq

/-- Index errors (enum IndexError, src/error.rs). -/
inductive IndexError where
  | InvalidMagicNumber (magic : Nat)
  | MissingUpstreamFile (path : String)
  | ByteSizeMismatch (actual expected : Nat)
deriving DecidableEq

/-- Top-level error type (enum Error, src/error.rs).  BitnucError wraps a
packer failure, SliceOutOfRange models a Rust slice-index panic and
UnwrapNone an Option::unwrap panic; wrapped io errors of the source cannot
occur on the in-memory sinks modelled here. -/
inductive Error where
  | HeaderError (e : HeaderError)
  | WriteError (e : WriteError)
  | ReadError (e : ReadError)
  | IndexError (e : IndexError)
  | BitnucError
  | SliceOutOfRange
  | UnwrapNone
deriving DecidableEq

/-- IndexError::is_mismatch (src/error.rs).  The source's matches! pattern
is ByteSizeMismatch(_, _) | _ , whose trailing wildcard alternative makes
the predicate hold for every variant. -/
def IndexError.is_mismatch : IndexError → Bool
  | .ByteSizeMismatch _ _ => true
  | _ => true

/-- Error::is_index_mismatch (src/error.rs). -/
def Error.is_index_mismatch : Error → Bool
  | .IndexError e => e.is_mismatch
  | _ => false

/-- VBinseqHeader::from_bytes (src/header.rs), over a 32-byte buffer. -/
def VBinseqHeader.from_bytes (buffer : List Nat) : Except Error VBinseqHeader :=
  let magic := leRead buffer 0 4
  if magic ≠ MAGIC then .error (.HeaderError (.InvalidMagicNumber magic)) else
  let format := buffer.getD 4 0
  if format ≠ FORMAT then .error (.HeaderError (.InvalidFormatVersion format)) else
  let block := leRead buffer 5 8
  let qual := buffer.getD 13 0 ≠ 0
  let compressed := buffer.getD 14 0 ≠ 0
  let paired := buffer.getD 15 0 ≠ 0
  let reserved := (buffer.drop 16).take 16
  if reserved.length ≠ 16 then .error (.HeaderError .InvalidReservedBytes) else
  .ok { magic, format, block, qual, compressed, paired, reserved }

/-- VBinseqHeader::write_bytes (src/header.rs).  Byte 13 holds qual and
byte 14 holds compressed; the source then stores the compressed flag again
at byte 15, the slot from_bytes reads the paired flag from. -/
def VBinseqHeader.write_bytes (h : VBinseqHeader) : List Nat :=
  leWrite h.magic 4 ++ [h.format] ++ leWrite h.block 8 ++
    [if h.qual then 1 else 0] ++
    [if h.compressed then 1 else 0] ++
    [if h.compressed then 1 else 0] ++
    h.reserved

/-- Block header (struct BlockHeader, src/header.rs). -/
structure BlockHeader where
  magic : Nat
  size : Nat
  records : Nat
  reserved : List Nat
deriving DecidableEq

/-- BlockHeader::new (src/header.rs). -/
def BlockHeader.new (size records : Nat) : BlockHeader :=
  { magic := BLOCK_MAGIC, size, records, reserved := RESERVED_BYTES_BLOCK }

/-- BlockHeader::write_bytes (src/header.rs). -/
def BlockHeader.write_bytes (h : BlockHeader) : List Nat :=
  leWrite h.magic 8 ++ leWrite h.size 8 ++ leWrite h.records 4 ++ h.reserved

/-- BlockHeader::from_bytes (src/header.rs).  On a magic mismatch the
source constructs InvalidBlockMagicNumber(magic, 0): the position argument
is the literal zero, whatever file offset the buffer came from. -/
def BlockHeader.from_bytes (buffer : List Nat) : Except Error BlockHeader :=
  let magic := leRead buffer 0 8
  if magic ≠ BLOCK_MAGIC then .error (.ReadError (.InvalidBlockMagicNumber magic 0)) else
  let size := leRead buffer 8 8
  let records := leRead buffer 16 4
  .ok (BlockHeader.new size records)

/-- record_byte_size (src/writer.rs): preamble of three 64-bit words plus
the packed words of both sequences. -/
def record_byte_size (schunk xchunk : Nat) : Nat :=
  8 * (schunk + xchunk + 3)

/-- record_byte_size_quality (src/writer.rs): adds one quality byte per
base of both sequences. -/
def record_byte_size_quality (schunk xchunk slen xlen : Nat) : Nat :=
  record_byte_size schunk xchunk + slen + xlen

/-- Modelled from the spec: 2-bit value of one base for the bitnuc packer
collaborator (A, C, G, T map to 0..3; anything else is invalid). -/
def base_to_bits (b : Nat) : Option Nat :=
  if b = 65 then some 0
  else if b = 67 then some 1
  else if b = 71 then some 2
  else if b = 84 then some 3
  else none

/-- Modelled from the spec: the base of a 2-bit value, inverse of
base_to_bits. -/
def bits_to_base (v : Nat) : Nat :=
  if v = 0 then 65 else if v = 1 then 67 else if v = 2 then 71 else 84

/-- Helper of chunk32, structurally recursive on a fuel bound that the
caller chooses at least as large as the number of chunks. -/
def chunk32Aux : Nat → List Nat → List (List Nat)
  | 0, _ => []
  | _, [] => []
  | fuel + 1, l => l.take 32 :: chunk32Aux fuel (l.drop 32)

/-- Split a list into chunks of at most 32 elements (the 32 bases that
share one 64-bit word).  Each step consumes at least one element, so a
fuel of the list's length can never be exhausted early. -/
def chunk32 (l : List Nat) : List (List Nat) :=
  chunk32Aux l.length l

/-- Pack up to 32 2-bit values into one word, first base in the low-order
two bits. -/
def packWord (chunk : List Nat) : Nat :=
  chunk.foldr (fun b acc => acc * 4 + b) 0

/-- Modelled from the spec: bitnuc::encode of the packer collaborator.
Fails (None) when any byte is not one of A, C, G, T; otherwise packs 32
bases per 64-bit word. -/
def bitnuc_encode (seq : List Nat) : Option (List Nat) :=
  (seq.mapM base_to_bits).map (fun bits => (chunk32 bits).map packWord)

/-- The 32 bases stored in one packed word, low-order pair first. -/
def wordBases (w : Nat) : List Nat :=
  (List.range 32).map (fun i => bits_to_base (w / 4 ^ i % 4))

/-- Modelled from the spec: bitnuc::decode of the packer collaborator,
inverting the packing over the first `len` bases. -/
def bitnuc_decode (words : List Nat) (len : Nat) : List Nat :=
  ((words.map wordBases).flatten).take len

/-- The invalid-nucleotide policy collaborator with its seeded PRNG folded
in: an error fails the write, none elects to skip the record, some returns
the corrected byte sequence. -/
abbrev Policy := List Nat → Except Error (Option (List Nat))

/-- Encoder::encode_single (src/writer.rs): pack directly when the raw
sequence is valid; otherwise consult the policy and re-pack the corrected
bytes, propagating a packer failure on them. -/
def Encoder.encode_single (policy : Policy) (primary : List Nat) :
    Except Error (Option (List Nat)) :=
  match bitnuc_encode primary with
  | some sbuffer => .ok (some sbuffer)
  | none =>
    match policy primary with
    | .error e => .error e
    | .ok none => .ok none
    | .ok (some corrected) =>
      match bitnuc_encode corrected with
      | some sbuffer => .ok (some sbuffer)
      | none => .error .BitnucError

/-- Encoder::encode_paired (src/writer.rs): when either raw sequence fails
to pack, the policy is consulted on the primary first and, only if it
corrects it, on the extended sequence; both corrected sequences are then
re-packed. -/
def Encoder.encode_paired (policy : Policy) (primary extended : List Nat) :
    Except Error (Option (List Nat × List Nat)) :=
  match bitnuc_encode primary, bitnuc_encode extended with
  | some sbuffer, some xbuffer => .ok (some (sbuffer, xbuffer))
  | _, _ =>
    match policy primary with
    | .error e => .error e
    | .ok none => .ok none
    | .ok (some s_ibuf) =>
      match policy extended with
      | .error e => .error e
      | .ok none => .ok none
      | .ok (some x_ibuf) =>
        match bitnuc_encode s_ibuf, bitnuc_encode x_ibuf with
        | some sbuffer, some xbuffer => .ok (some (sbuffer, xbuffer))
        | _, _ => .error .BitnucError

/-- Write-path block assembler (struct BlockWriter, src/writer.rs). -/
structure BlockWriter where
  pos : Nat
  starts : List Nat
  block_size : Nat
  level : Nat
  ubuf : List Nat
  zbuf : List Nat
  padding : List Nat
  compress : Bool
deriving DecidableEq

/-- BlockWriter::new (src/writer.rs). -/
def BlockWriter.new (block_size : Nat) (compress : Bool) : BlockWriter :=
  { pos := 0, starts := [], block_size, level := 3, ubuf := [], zbuf := [],
    padding := List.replicate block_size 0, compress }

/-- BlockWriter::exceeds_block_size (src/writer.rs). -/
def BlockWriter.exceeds_block_size (w : BlockWriter) (record_size : Nat) :
    Except Error Bool :=
  if record_size > w.block_size then
    .error (.WriteError (.RecordSizeExceedsMaximumBlockSize record_size w.block_size))
  else
    .ok (decide (w.pos + record_size > w.block_size))

/-- BlockWriter::write_flag (src/writer.rs): eight little-endian bytes
appended to ubuf, pos advanced by eight. -/
def BlockWriter.write_flag (w : BlockWriter) (flag : Nat) : BlockWriter :=
  { w with ubuf := w.ubuf ++ leWrite flag 8, pos := w.pos + 8 }

/-- BlockWriter::write_length (src/writer.rs). -/
def BlockWriter.write_length (w : BlockWriter) (length : Nat) : BlockWriter :=
  { w with ubuf := w.ubuf ++ leWrite length 8, pos := w.pos + 8 }

/-- BlockWriter::write_buffer (src/writer.rs): each packed word as eight
little-endian bytes. -/
def BlockWriter.write_buffer (w : BlockWriter) (ebuf : List Nat) : BlockWriter :=
  { w with ubuf := w.ubuf ++ (ebuf.map (fun x => leWrite x 8)).flatten,
           pos := w.pos + 8 * ebuf.length }

/-- BlockWriter::write_quality (src/writer.rs). -/
def BlockWriter.write_quality (w : BlockWriter) (quality : List Nat) : BlockWriter :=
  { w with ubuf := w.ubuf ++ quality, pos := w.pos + quality.length }

/-- BlockWriter::write_record (src/writer.rs): push the record's start
position, then append the preamble, the primary packed words, the optional
primary quality, the optional extended packed words and the optional
extended quality. -/
def BlockWriter.write_record (w : BlockWriter) (flag slen xlen : Nat)
    (sbuf : List Nat) (squal : Option (List Nat)) (xbuf : Option (List Nat))
    (xqual : Option (List Nat)) : BlockWriter :=
  let w := { w with starts := w.starts ++ [w.pos] }
  let w := w.write_flag flag
  let w := w.write_length slen
  let w := w.write_length xlen
  let w := w.write_buffer sbuf
  let w := match squal with | some q => w.write_quality q | none => w
  let w := match xbuf with | some b => w.write_buffer b | none => w
  match xqual with | some q => w.write_quality q | none => w

/-- BlockWriter::clear (src/writer.rs). -/
def BlockWriter.clear (w : BlockWriter) : BlockWriter :=
  { w with pos := 0, starts := [], ubuf := [], zbuf := [] }

/-- BlockWriter::flush_compressed (src/writer.rs): frame ubuf through the
zstd collaborator into zbuf and emit a block header whose size is the
frame length.  The source builds the header from that size alone: the
BlockWriter keeps no record count and the header's records field is left
zero. -/
def BlockWriter.flush_compressed (zstdC : List Nat → List Nat)
    (w : BlockWriter) : BlockWriter × List Nat :=
  let zbuf := zstdC w.ubuf
  let header := BlockHeader.new zbuf.length 0
  ({ w with zbuf }, header.write_bytes ++ zbuf)

/-- BlockWriter::flush_uncompressed (src/writer.rs): emit a block header
whose size is the logical block size, then ubuf.  The source builds the
header from that size alone: the BlockWriter keeps no record count and the
header's records field is left zero. -/
def BlockWriter.flush_uncompressed (w : BlockWriter) : BlockWriter × List Nat :=
  let header := BlockHeader.new w.block_size 0
  (w, header.write_bytes ++ w.ubuf)

/-- BlockWriter::flush (src/writer.rs): skip when empty, pad ubuf to the
block size, emit through the compressed or uncompressed path, clear. -/
def BlockWriter.flush (zstdC : List Nat → List Nat) (w : BlockWriter) :
    BlockWriter × List Nat :=
  if w.pos = 0 then (w, [])
  else
    let bytes_to_next_start := w.block_size - w.pos
    let w := { w with ubuf := w.ubuf ++ w.padding.take bytes_to_next_start }
    let (w, out) :=
      if w.compress then w.flush_compressed zstdC else w.flush_uncompressed
    (w.clear, out)

/-- BlockWriter::ingest_all (src/writer.rs): drain all of the other's
bytes and starts into self, shifting the starts by self's position. -/
def BlockWriter.ingest_all (w other : BlockWriter) : BlockWriter × BlockWriter :=
  let n_bytes := other.pos
  ({ w with ubuf := w.ubuf ++ other.ubuf,
            starts := w.starts ++ other.starts.map (· + w.pos),
            pos := w.pos + n_bytes },
   other.clear)

/-- BlockWriter::ingest_subset (src/writer.rs): move the maximal prefix of
whole records whose start fits into self's remaining space; the source
unwraps the last fitting start and panics when there is none. -/
def BlockWriter.ingest_subset (w other : BlockWriter) :
    Except Error (BlockWriter × BlockWriter) :=
  let remaining := w.block_size - w.pos
  match (other.starts.enum.takeWhile (fun p => p.2 ≤ remaining)).getLast? with
  | none => .error .UnwrapNone
  | some (start_index, end_byte) =>
    .ok ({ w with ubuf := w.ubuf ++ other.ubuf.take end_byte,
                  starts := w.starts ++ (other.starts.take start_index).map (· + w.pos),
                  pos := w.pos + end_byte },
         { other with ubuf := other.ubuf.drop end_byte,
                      starts := (other.starts.drop start_index).map (· - end_byte),
                      pos := other.pos - end_byte })

/-- BlockWriter::ingest (src/writer.rs): take everything directly when it
fits, otherwise move a record-aligned prefix, flush self to the sink and
take the rest.  The third component is the byte stream the intermediate
flush emitted. -/
def BlockWriter.ingest (zstdC : List Nat → List Nat) (w other : BlockWriter) :
    Except Error (BlockWriter × BlockWriter × List Nat) :=
  let remaining := w.block_size - w.pos
  if other.pos ≤ remaining then
    let (w, other) := w.ingest_all other
    .ok (w, other, [])
  else
    match w.ingest_subset other with
    | .error e => .error e
    | .ok (w, other) =>
      let (w, out) := w.flush zstdC
      let (w, other) := w.ingest_all other
      .ok (w, other, out)

/-- Stateful front-end bound to a file header (struct VBinseqWriter,
src/writer.rs).  The sink is an in-memory byte list; the encoder's
scratch buffers are cleared on every call in the source and its policy and
PRNG are abstracted into the Policy parameter of each operation. -/
structure VBinseqWriter where
  inner : List Nat
  header : VBinseqHeader
  cblock : BlockWriter
deriving DecidableEq

/-- VBinseqWriter::new (src/writer.rs): in headless mode nothing is
emitted, otherwise init writes the file header bytes. -/
def VBinseqWriter.new (header : VBinseqHeader) (headless : Bool) : VBinseqWriter :=
  { inner := if headless then [] else header.write_bytes,
    header,
    cblock := BlockWriter.new header.block header.compressed }

/-- VBinseqWriter::write_nucleotides (src/writer.rs).  Returns the source's
Result paired with the final writer state; on an error the guards fire
before any mutation, so the state is returned unchanged. -/
def VBinseqWriter.write_nucleotides (policy : Policy)
    (zstdC : List Nat → List Nat) (flag : Nat) (sequence : List Nat)
    (w : VBinseqWriter) : Except Error Bool × VBinseqWriter :=
  if w.header.qual then (.error (.WriteError .QualityFlagSet), w)
  else if w.header.paired then (.error (.WriteError .PairedFlagSet), w)
  else
    match Encoder.encode_single policy sequence with
    | .error e => (.error e, w)
    | .ok none => (.ok false, w)
    | .ok (some sbuffer) =>
      let record_size := record_byte_size sbuffer.length 0
      match w.cblock.exceeds_block_size record_size with
      | .error e => (.error e, w)
      | .ok exceeds =>
        let w :=
          if exceeds then
            let (cb, out) := w.cblock.flush zstdC
            { w with cblock := cb, inner := w.inner ++ out }
          else w
        let cb := w.cblock.write_record flag sequence.length 0 sbuffer none none none
        (.ok true, { w with cblock := cb })

/-- VBinseqWriter::write_nucleotides_paired (src/writer.rs). -/
def VBinseqWriter.write_nucleotides_paired (policy : Policy)
    (zstdC : List Nat → List Nat) (flag : Nat) (primary extended : List Nat)
    (w : VBinseqWriter) : Except Error Bool × VBinseqWriter :=
  if w.header.qual then (.error (.WriteError .QualityFlagSet), w)
  else if !w.header.paired then (.error (.WriteError .PairedFlagNotSet), w)
  else
    match Encoder.encode_paired policy primary extended with
    | .error e => (.error e, w)
    | .ok none => (.ok false, w)
    | .ok (some (sbuffer, xbuffer)) =>
      let record_size := record_byte_size sbuffer.length xbuffer.length
      match w.cblock.exceeds_block_size record_size with
      | .error e => (.error e, w)
      | .ok exceeds =>
        let w :=
          if exceeds then
            let (cb, out) := w.cblock.flush zstdC
            { w with cblock := cb, inner := w.inner ++ out }
          else w
        let cb := w.cblock.write_record flag primary.length extended.length
          sbuffer none (some xbuffer) none
        (.ok true, { w with cblock := cb })

/-- VBinseqWriter::write_nucleotides_quality (src/writer.rs). -/
def VBinseqWriter.write_nucleotides_quality (policy : Policy)
    (zstdC : List Nat → List Nat) (flag : Nat) (sequence quality : List Nat)
    (w : VBinseqWriter) : Except Error Bool × VBinseqWriter :=
  if !w.header.qual then (.error (.WriteError .QualityFlagNotSet), w)
  else if w.header.paired then (.error (.WriteError .PairedFlagSet), w)
  else
    match Encoder.encode_single policy sequence with
    | .error e => (.error e, w)
    | .ok none => (.ok false, w)
    | .ok (some sbuffer) =>
      let record_size := record_byte_size_quality sbuffer.length 0 quality.length 0
      match w.cblock.exceeds_block_size record_size with
      | .error e => (.error e, w)
      | .ok exceeds =>
        let w :=
          if exceeds then
            let (cb, out) := w.cblock.flush zstdC
            { w with cblock := cb, inner := w.inner ++ out }
          else w
        let cb := w.cblock.write_record flag sequence.length 0 sbuffer
          (some quality) none none
        (.ok true, { w with cblock := cb })

/-- VBinseqWriter::write_nucleotides_quality_paired (src/writer.rs). -/
def VBinseqWriter.write_nucleotides_quality_paired (policy : Policy)
    (zstdC : List Nat → List Nat) (flag : Nat)
    (s_seq x_seq s_qual x_qual : List Nat) (w : VBinseqWriter) :
    Except Error Bool × VBinseqWriter :=
  if !w.header.qual then (.error (.WriteError .QualityFlagNotSet), w)
  else if !w.header.paired then (.error (.WriteError .PairedFlagNotSet), w)
  else
    match Encoder.encode_paired policy s_seq x_seq with
    | .error e => (.error e, w)
    | .ok none => (.ok false, w)
    | .ok (some (sbuffer, xbuffer)) =>
      let record_size := record_byte_size_quality sbuffer.length xbuffer.length
        s_qual.length x_qual.length
      match w.cblock.exceeds_block_size record_size with
      | .error e => (.error e, w)
      | .ok exceeds =>
        let w :=
          if exceeds then
            let (cb, out) := w.cblock.flush zstdC
            { w with cblock := cb, inner := w.inner ++ out }
          else w
        let cb := w.cblock.write_record flag s_seq.length x_seq.length
          sbuffer (some s_qual) (some xbuffer) (some x_qual)
        (.ok true, { w with cblock := cb })

/-- VBinseqWriter::finish (src/writer.rs): flush the block writer into the
sink; flushing the in-memory sink itself is a no-op. -/
def VBinseqWriter.finish (zstdC : List Nat → List Nat) (w : VBinseqWriter) :
    VBinseqWriter :=
  let (cb, out) := w.cblock.flush zstdC
  { w with cblock := cb, inner := w.inner ++ out }

/-- VBinseqWriter::ingest (src/writer.rs): copy all fully formed bytes of
the other writer's sink into self's sink, clear the other's sink, then
delegate the partial block to BlockWriter::ingest.  The source performs no
comparison of the two writers' headers. -/
def VBinseqWriter.ingest (zstdC : List Nat → List Nat)
    (w other : VBinseqWriter) : Except Error (VBinseqWriter × VBinseqWriter) :=
  let w1 := { w with inner := w.inner ++ other.inner }
  let other1 := { other with inner := [] }
  match BlockWriter.ingest zstdC w1.cblock other1.cblock with
  | .error e => .error e
  | .ok (wcb, ocb, out) =>
    .ok ({ w1 with cblock := wcb, inner := w1.inner ++ out },
         { other1 with cblock := ocb })

/-- encoded_sequence_len (src/reader.rs): number of 64-bit words packing a
sequence of `len` bases, two bits per base. -/
def encoded_sequence_len (len : Nat) : Nat :=
  (len + 31) / 32

/-- In-memory decoded columnar representation of one block (struct
RecordBlock, src/reader.rs).  The reusable decompression scratch buffer
rbuf of the source carries no observable state and is omitted. -/
structure RecordBlock where
  index : Nat
  flags : List Nat
  lens : List Nat
  sequences : List Nat
  qualities : List Nat
  block_size : Nat
deriving DecidableEq

/-- RecordBlock::new (src/reader.rs). -/
def RecordBlock.new (block_size : Nat) : RecordBlock :=
  { index := 0, flags := [], lens := [], sequences := [], qualities := [],
    block_size }

/-- RecordBlock::n_records (src/reader.rs). -/
def RecordBlock.n_records (b : RecordBlock) : Nat :=
  b.flags.length

/-- RecordBlock::update_index (src/reader.rs). -/
def RecordBlock.update_index (b : RecordBlock) (index : Nat) : RecordBlock :=
  { b with index }

/-- RecordBlock::clear (src/reader.rs). -/
def RecordBlock.clear (b : RecordBlock) : RecordBlock :=
  { b with
    index := 0, flags := [], lens := [], sequences := [], qualities := [] }

/-- Read `count` consecutive 64-bit little-endian words starting at `pos`,
as the word-by-word copy loops of RecordBlock::ingest_bytes do. -/
def readWords (bytes : List Nat) (pos count : Nat) : List Nat :=
  (List.range count).map (fun i => leRead bytes (pos + 8 * i) 8)

/-- Outcome of one pass of the ingest loop body: the loop stops (too few
bytes left or the slen sentinel), fails, or continues at a new position
with the record appended. -/
inductive IngestStep where
  | stop
  | fail (e : Error)
  | next (endPos : Nat) (b : RecordBlock)

/-- One pass of the body of the RecordBlock::ingest_bytes loop
(src/reader.rs): stop when fewer than 24 bytes remain or the slen field
reads zero (the block padding sentinel); otherwise push the flag and both
lengths, copy the packed primary words, the primary quality when present,
the packed extended words and the extended quality, and continue past
them.  A record whose payload would run past the end of the buffer makes
the source's slicing panic, modelled by the SliceOutOfRange failure. -/
def RecordBlock.ingestStep (bytes : List Nat) (has_quality : Bool)
    (pos : Nat) (b : RecordBlock) : IngestStep :=
  if bytes.length < pos + 24 then .stop
  else
    let flag := leRead bytes pos 8
    let slen := leRead bytes (pos + 8) 8
    let xlen := leRead bytes (pos + 16) 8
    if slen = 0 then .stop
    else
      let schunk := encoded_sequence_len slen
      let xchunk := encoded_sequence_len xlen
      let sqlen := if has_quality then slen else 0
      let xqlen := if has_quality then xlen else 0
      let sqPos := pos + 24 + 8 * schunk
      let xPos := sqPos + sqlen
      let xqPos := xPos + 8 * xchunk
      let endPos := xqPos + xqlen
      if bytes.length < endPos then .fail .SliceOutOfRange
      else
        .next endPos
          { b with
            flags := b.flags ++ [flag],
            lens := b.lens ++ [slen, xlen],
            sequences := b.sequences ++ readWords bytes (pos + 24) schunk ++
              readWords bytes xPos xchunk,
            qualities := b.qualities ++ (bytes.drop sqPos).take sqlen ++
              (bytes.drop xqPos).take xqlen }

def RecordBlock.ingestLoop (bytes : List Nat) (has_quality : Bool) :
    Nat → Nat → RecordBlock → Except Error RecordBlock
  | 0, _, b => .ok b
  | fuel + 1, pos, b =>
    match RecordBlock.ingestStep bytes has_quality pos b with
    | .stop => .ok b
    | .fail e => .error e
    | .next endPos b' => RecordBlock.ingestLoop bytes has_quality fuel endPos b'

/-- RecordBlock::ingest_bytes (src/reader.rs).  The loop is driven with a
fuel one above the buffer's length: every iteration demands at least 24
further bytes of the buffer, so the fuel can never run out before the
loop's own stop conditions fire. -/
def RecordBlock.ingest_bytes (b : RecordBlock) (bytes : List Nat)
    (has_quality : Bool) : Except Error RecordBlock :=
  RecordBlock.ingestLoop bytes has_quality (bytes.length + 1) 0 b

/-- The loop of RecordBlock::ingest_compressed_bytes (src/reader.rs) over
the already-decoded stream: the synthetic position is bounded by the
logical block size rather than by the stream length, and every field is
pulled with read_exact, whose failure on a short stream surfaces as a
wrapped io error (modelled by SliceOutOfRange). -/
def RecordBlock.ingestCompressedLoop (decoded : List Nat) (has_quality : Bool) :
    Nat → Nat → Nat → RecordBlock → Except Error RecordBlock
  | 0, _, _, b => .ok b
  | fuel + 1, pos, dpos, b =>
    if b.block_size < pos + 24 then .ok b
    else if decoded.length < dpos + 24 then .error .SliceOutOfRange
    else
      let flag := leRead decoded dpos 8
      let slen := leRead decoded (dpos + 8) 8
      let xlen := leRead decoded (dpos + 16) 8
      if slen = 0 then .ok b
      else
        let schunk := encoded_sequence_len slen
        let xchunk := encoded_sequence_len xlen
        let sqlen := if has_quality then slen else 0
        let xqlen := if has_quality then xlen else 0
        let sqPos := dpos + 24 + 8 * schunk
        let xPos := sqPos + sqlen
        let xqPos := xPos + 8 * xchunk
        let dEnd := xqPos + xqlen
        if decoded.length < dEnd then .error .SliceOutOfRange
        else
          let step := 24 + 8 * schunk + sqlen + 8 * xchunk + xqlen
          let b' :=
            { b with
              flags := b.flags ++ [flag],
              lens := b.lens ++ [slen, xlen],
              sequences := b.sequences ++ readWords decoded (dpos + 24) schunk ++
                readWords decoded xPos xchunk,
              qualities := b.qualities ++ (decoded.drop sqPos).take sqlen ++
                (decoded.drop xqPos).take xqlen }
          RecordBlock.ingestCompressedLoop decoded has_quality fuel (pos + step) dEnd b'

/-- RecordBlock::ingest_compressed_bytes (src/reader.rs): run the stream
through the zstd decoder collaborator, then decode records against the
logical block size bound.  The loop is driven with a fuel one above the
block size: every iteration advances the synthetic position by at least 24
within the block size, so the fuel can never run out before the loop's own
stop conditions fire. -/
def RecordBlock.ingest_compressed_bytes (unzstd : List Nat → List Nat)
    (b : RecordBlock) (bytes : List Nat) (has_quality : Bool) :
    Except Error RecordBlock :=
  RecordBlock.ingestCompressedLoop (unzstd bytes) has_quality
    (b.block_size + 1) 0 0 b

/-- Lightweight view of one record (struct RefRecord, src/reader.rs). -/
structure RefRecord where
  index : Nat
  flag : Nat
  slen : Nat
  xlen : Nat
  sbuf : List Nat
  xbuf : List Nat
  squal : List Nat
  xqual : List Nat
deriving DecidableEq

/-- RefRecord::is_paired (src/reader.rs): xlen strictly positive. -/
def RefRecord.is_paired (r : RefRecord) : Bool :=
  decide (r.xlen > 0)

/-- RefRecord::has_quality (src/reader.rs): the primary quality slice is
non-empty. -/
def RefRecord.has_quality (r : RefRecord) : Bool :=
  !r.squal.isEmpty

/-- RefRecord::decode_s (src/reader.rs), through the packer collaborator. -/
def RefRecord.decode_s (r : RefRecord) : List Nat :=
  bitnuc_decode r.sbuf r.slen

/-- RefRecord::decode_x (src/reader.rs). -/
def RefRecord.decode_x (r : RefRecord) : List Nat :=
  bitnuc_decode r.xbuf r.xlen

/-- The body of RecordBlockIter::next (src/reader.rs): the record view
built at record position rpos and packed-word
position epos, paired with the epos at which the next record's slices
start: epos advances by the primary chunk count between the primary and
extended slices and by the extended chunk count afterwards; the very same
epos indexes the qualities column byte-wise, and both quality slices are
empty when the qualities column is. -/
def RecordBlock.recordAt (b : RecordBlock) (rpos epos : Nat) : RefRecord × Nat :=
  let flag := b.flags.getD rpos 0
  let slen := b.lens.getD (2 * rpos) 0
  let xlen := b.lens.getD (2 * rpos + 1) 0
  let schunk := encoded_sequence_len slen
  let xchunk := encoded_sequence_len xlen
  let s_seq := (b.sequences.drop epos).take schunk
  let s_qual := if b.qualities.isEmpty then [] else (b.qualities.drop epos).take slen
  let epos1 := epos + schunk
  let x_seq := (b.sequences.drop epos1).take xchunk
  let x_qual := if b.qualities.isEmpty then [] else (b.qualities.drop epos1).take xlen
  ({ index := b.index + rpos, flag, slen, xlen,
     sbuf := s_seq, xbuf := x_seq, squal := s_qual, xqual := x_qual },
   epos1 + xchunk)

/-- RecordBlockIter::next (src/reader.rs), unrolled into the list of all
yielded views.  Out-of-range slices (a panic in the source, which never
fires on blocks built by ingest) are modelled by truncating take/drop. -/
def RecordBlock.iterFrom (b : RecordBlock) : Nat → Nat → Nat → List RefRecord
  | 0, _, _ => []
  | fuel + 1, rpos, epos =>
    if rpos < b.n_records then
      (b.recordAt rpos epos).1 ::
        RecordBlock.iterFrom b fuel (rpos + 1) (b.recordAt rpos epos).2
    else []

/-- RecordBlock::iter (src/reader.rs): all records in insertion order.
The iteration is driven with a fuel of the record count, which the
counter rpos exhausts exactly when the source's iterator returns None. -/
def RecordBlock.iterList (b : RecordBlock) : List RefRecord :=
  b.iterFrom b.n_records 0 0

/-- Memory-mapped reader (struct MmapReader, src/reader.rs) over an
in-memory image of the file; the path and the is_file metadata check live
in the filesystem and are not modelled. -/
structure MmapReader where
  mmap : List Nat
  header : VBinseqHeader
  pos : Nat
  total : Nat
deriving DecidableEq

/-- MmapReader::new (src/reader.rs): parse the first 32 bytes as the file
header and start the cursor right after them (copying the header bytes out
of a shorter file panics in the source, modelled by SliceOutOfRange). -/
def MmapReader.new (mmap : List Nat) : Except Error MmapReader :=
  if mmap.length < 32 then .error .SliceOutOfRange
  else
    match VBinseqHeader.from_bytes (mmap.take 32) with
    | .error e => .error e
    | .ok header => .ok { mmap, header, pos := 32, total := 0 }

/-- MmapReader::read_block_into (src/reader.rs): clear the block, stop with
false when no full block header remains, parse the block header (its magic
error propagates as produced, carrying position zero), bound the body by
the block header's size when compressed and by the file header's block
size otherwise, fail with UnexpectedEndOfFile past the mapping, ingest raw
or through the decoder, stamp the running record total into the block and
advance the cursor and the total. -/
def MmapReader.read_block_into (unzstd : List Nat → List Nat)
    (r : MmapReader) (block : RecordBlock) :
    Except Error (Bool × MmapReader × RecordBlock) :=
  let block := block.clear
  if r.mmap.length < r.pos + 32 then .ok (false, r, block)
  else
    match BlockHeader.from_bytes ((r.mmap.drop r.pos).take 32) with
    | .error e => .error e
    | .ok header =>
      let pos1 := r.pos + 32
      let rbound := if r.header.compressed then header.size else r.header.block
      if r.mmap.length < pos1 + rbound then
        .error (.ReadError (.UnexpectedEndOfFile pos1))
      else
        let block_buffer := (r.mmap.drop pos1).take rbound
        let ingested :=
          if r.header.compressed then
            block.ingest_compressed_bytes unzstd block_buffer r.header.qual
          else
            block.ingest_bytes block_buffer r.header.qual
        match ingested with
        | .error e => .error e
        | .ok block =>
          let block := block.update_index r.total
          .ok (true, { r with pos := pos1 + rbound, total := r.total + header.records },
               block)

/-- Decidable equality of Except values, needed to evaluate the concrete
runs below by decide. -/
instance {ε α : Type} [DecidableEq ε] [DecidableEq α] :
    DecidableEq (Except ε α) := fun a b =>
  match a, b with
  | .error e1, .error e2 =>
    if h : e1 = e2 then .isTrue (by rw [h]) else .isFalse (by simp [h])
  | .ok v1, .ok v2 =>
    if h : v1 = v2 then .isTrue (by rw [h]) else .isFalse (by simp [h])
  | .error _, .ok _ => .isFalse (by simp)
  | .ok _, .error _ => .isFalse (by simp)

/-- The error of an Except, when there is one. -/
def errOf {α : Type} : Except Error α → Option Error
  | .error e => some e
  | .ok _ => none

/-- A header with the paired flag set (block 131072, qual and compressed
clear), the configuration whose serialization exposes byte 15. -/
def c3Header : VBinseqHeader := VBinseqHeader.new false false true

/-- Claim C3: the file-header serializer emits 32 bytes, but byte 15 holds
the compressed flag instead of the paired flag, so parsing the bytes of a
paired uncompressed header returns it with paired cleared: the write/parse
round trip fails on the paired field. -/
theorem header_byte15_not_paired :
    c3Header.paired = true ∧
    c3Header.write_bytes.length = 32 ∧
    c3Header.write_bytes.getD 15 0 = 0 ∧
    VBinseqHeader.from_bytes c3Header.write_bytes = .ok { c3Header with paired := false } := by
  decide

/-- Claim C5: the index mismatch predicate returns true on the
invalid-index-magic and missing-upstream-path variants as well, not only
on the byte-size mismatch, so load_index would silently rebuild the
sidecar on every index error. -/
theorem is_mismatch_true_on_all_variants :
    IndexError.is_mismatch (.InvalidMagicNumber 0) = true ∧
    IndexError.is_mismatch (.MissingUpstreamFile "block.vbq") = true ∧
    IndexError.is_mismatch (.ByteSizeMismatch 100 200) = true ∧
    Error.is_index_mismatch (.IndexError (.InvalidMagicNumber 0)) = true := by
  decide

/-- A block writer of block size 128 holding exactly one completed record
(flag 1, one base, no pair, no quality). -/
def c2Writer : BlockWriter :=
  (BlockWriter.new 128 false).write_record 1 1 0 [0] none none none

/-- Claim C2: flushing a block that holds one completed record emits a
block header whose records field is zero, not one — the block writer keeps
no record count and the flush paths build the header from the body size
alone. -/
theorem flush_block_header_records_zero :
    c2Writer.starts.length = 1 ∧
    (BlockHeader.from_bytes (((c2Writer.flush id).2).take 32)).map
      (fun h => h.records) = .ok 0 := by
  decide

/-- A headless writer over a quality-enabled header holding one record, the
ingest source. -/
def c4Other : VBinseqWriter :=
  (VBinseqWriter.write_nucleotides_quality (fun _ => .ok none) id 1 [65] [33]
    (VBinseqWriter.new (VBinseqHeader.with_capacity 128 true false false) true)).2

/-- A headless writer over a quality-free header, the ingest target; its
header differs from c4Other's. -/
def c4Self : VBinseqWriter :=
  VBinseqWriter.new (VBinseqHeader.with_capacity 128 false false false) true

/-- Claim C4: ingesting a writer whose file header differs from self's
succeeds rather than failing with the incompatible-headers error, and
moves the other writer's partial block into self. -/
theorem ingest_ignores_header_mismatch :
    c4Self.header ≠ c4Other.header ∧
    (VBinseqWriter.ingest id c4Self c4Other).map
      (fun p => (p.1.cblock.pos, p.1.cblock.starts, p.2.cblock.pos)) =
      .ok (33, [0], 0) := by
  decide

/-- A file image whose 32 bytes after the valid file header carry a block
header with magic zero. -/
def c6File : List Nat :=
  (VBinseqHeader.with_capacity 128 false false false).write_bytes ++
    List.replicate 32 0

/-- Claim C6: reading the block at cursor 32 whose magic is corrupt fails
with the invalid-block-magic error carrying position 0, not the file
offset 32 at which the bad magic sits — BlockHeader::from_bytes hardcodes
the position argument to zero and read_block_into propagates it
unchanged. -/
theorem block_magic_error_offset_zero :
    (MmapReader.new c6File).map (fun r =>
      (r.pos, errOf (MmapReader.read_block_into id r (RecordBlock.new 128)))) =
      .ok (32, some (.ReadError (.InvalidBlockMagicNumber 0 0))) := by
  decide

/-- Writing an empty primary sequence (flag 1) into a fresh headless
quality-free unpaired writer of block size 128. -/
def c7Step : Except Error Bool × VBinseqWriter :=
  VBinseqWriter.write_nucleotides (fun _ => .ok none) id 1 []
    (VBinseqWriter.new (VBinseqHeader.with_capacity 128 false false false) true)

/-- Claim C7: the write of an empty primary sequence is accepted (returns
true) and emits a 24-byte record whose slen field — bytes 8..16 of the
block body — is zero, the end-of-block padding sentinel, instead of being
rejected. -/
theorem write_empty_sequence_accepted :
    c7Step.1 = .ok true ∧
    c7Step.2.cblock.pos = 24 ∧
    leRead c7Step.2.cblock.ubuf 8 8 = 0 := by
  decide

/-- Claim C8: exceeds_block_size fails with the size-exceeds error carrying
the record size and the block size exactly when the record size is
strictly above the block size (so a record exactly equal to the block size
is accepted), and otherwise reports whether pos plus the record size
overruns the block. -/
theorem exceeds_block_size_spec (w : BlockWriter) (record_size : Nat) :
    (w.block_size < record_size →
      w.exceeds_block_size record_size =
        .error (.WriteError
          (.RecordSizeExceedsMaximumBlockSize record_size w.block_size))) ∧
    (record_size ≤ w.block_size →
      w.exceeds_block_size record_size =
        .ok (decide (w.block_size < w.pos + record_size))) := by
  constructor
  · intro h
    unfold BlockWriter.exceeds_block_size
    rw [if_pos h]
  · intro h
    unfold BlockWriter.exceeds_block_size
    rw [if_neg (by omega)]

/-- Witness for exceeds_block_size_spec at block size 10: 11 is rejected
with the size-exceeds error; exactly 10 is accepted. -/
theorem exceeds_block_size_spec_witness :
    (BlockWriter.new 10 false).exceeds_block_size 11 =
      .error (.WriteError (.RecordSizeExceedsMaximumBlockSize 11 10)) ∧
    (BlockWriter.new 10 false).exceeds_block_size 10 = .ok false :=
  ⟨(exceeds_block_size_spec (BlockWriter.new 10 false) 11).1 (by decide),
   (exceeds_block_size_spec (BlockWriter.new 10 false) 10).2 (by decide)⟩

/-- Claim C9: each of the four record operations validates the header
flags up-front and fails with the matching flag-mismatch error, returning
the writer unchanged; in particular write_nucleotides_quality on a header
without the quality flag fails with QualityFlagNotSet. -/
theorem write_guard_spec (policy : Policy) (zstdC : List Nat → List Nat)
    (flag : Nat) (s x sq xq : List Nat) (w : VBinseqWriter) :
    (w.header.qual = false →
      VBinseqWriter.write_nucleotides_quality policy zstdC flag s sq w =
        (.error (.WriteError .QualityFlagNotSet), w)) ∧
    (w.header.qual = false →
      VBinseqWriter.write_nucleotides_quality_paired policy zstdC flag s x sq xq w =
        (.error (.WriteError .QualityFlagNotSet), w)) ∧
    (w.header.qual = true →
      VBinseqWriter.write_nucleotides policy zstdC flag s w =
        (.error (.WriteError .QualityFlagSet), w)) ∧
    (w.header.qual = true →
      VBinseqWriter.write_nucleotides_paired policy zstdC flag s x w =
        (.error (.WriteError .QualityFlagSet), w)) ∧
    (w.header.qual = true → w.header.paired = true →
      VBinseqWriter.write_nucleotides_quality policy zstdC flag s sq w =
        (.error (.WriteError .PairedFlagSet), w)) ∧
    (w.header.qual = false → w.header.paired = true →
      VBinseqWriter.write_nucleotides policy zstdC flag s w =
        (.error (.WriteError .PairedFlagSet), w)) ∧
    (w.header.qual = true → w.header.paired = false →
      VBinseqWriter.write_nucleotides_quality_paired policy zstdC flag s x sq xq w =
        (.error (.WriteError .PairedFlagNotSet), w)) ∧
    (w.header.qual = false → w.header.paired = false →
      VBinseqWriter.write_nucleotides_paired policy zstdC flag s x w =
        (.error (.WriteError .PairedFlagNotSet), w)) := by
  refine ⟨fun h1 => ?_, fun h1 => ?_, fun h1 => ?_, fun h1 => ?_,
    fun h1 h2 => ?_, fun h1 h2 => ?_, fun h1 h2 => ?_, fun h1 h2 => ?_⟩ <;>
    simp [VBinseqWriter.write_nucleotides, VBinseqWriter.write_nucleotides_paired,
      VBinseqWriter.write_nucleotides_quality,
      VBinseqWriter.write_nucleotides_quality_paired, *]

/-- A fresh headless writer whose header has neither qual nor paired. -/
def gw00 : VBinseqWriter :=
  VBinseqWriter.new (VBinseqHeader.with_capacity 128 false false false) true

/-- A fresh headless writer whose header has both qual and paired. -/
def gw11 : VBinseqWriter :=
  VBinseqWriter.new (VBinseqHeader.with_capacity 128 true false true) true

/-- Witness for write_guard_spec: concrete guard failures of all four
operations on concrete writers, each leaving the writer unchanged. -/
theorem write_guard_spec_witness :
    VBinseqWriter.write_nucleotides_quality (fun _ => .ok none) id 1 [65] [33] gw00 =
      (.error (.WriteError .QualityFlagNotSet), gw00) ∧
    VBinseqWriter.write_nucleotides (fun _ => .ok none) id 1 [65] gw11 =
      (.error (.WriteError .QualityFlagSet), gw11) ∧
    VBinseqWriter.write_nucleotides_quality (fun _ => .ok none) id 1 [65] [33] gw11 =
      (.error (.WriteError .PairedFlagSet), gw11) ∧
    VBinseqWriter.write_nucleotides_paired (fun _ => .ok none) id 1 [65] [65] gw00 =
      (.error (.WriteError .PairedFlagNotSet), gw00) :=
  ⟨(write_guard_spec (fun _ => .ok none) id 1 [65] [65] [33] [33] gw00).1 rfl,
   (write_guard_spec (fun _ => .ok none) id 1 [65] [65] [33] [33] gw11).2.2.1 rfl,
   (write_guard_spec (fun _ => .ok none) id 1 [65] [65] [33] [33] gw11).2.2.2.2.1 rfl rfl,
   (write_guard_spec (fun _ => .ok none) id 1 [65] [65] [33] [33]
     gw00).2.2.2.2.2.2.2 rfl rfl⟩

/-- The observable content of one record for the round-trip property: the
flag, both decoded sequences and both quality strings. -/
structure RecordObs where
  flag : Nat
  sdec : List Nat
  xdec : List Nat
  squal : List Nat
  xqual : List Nat
deriving DecidableEq

/-- The observation of a record view: decode both sequences and keep the
flag and the quality slices. -/
def RefRecord.obs (v : RefRecord) : RecordObs :=
  { flag := v.flag, sdec := v.decode_s, xdec := v.decode_x,
    squal := v.squal, xqual := v.xqual }

/-- Header of the round-trip failing input: block 128, quality on,
uncompressed, paired. -/
def c1Header : VBinseqHeader := VBinseqHeader.with_capacity 128 true false true

/-- Round-trip failing input: one paired quality record, flag 3, primary
ACGT with quality 4 x 0x21, extended TGCA with quality 4 x 0x23, written
into a fresh non-headless writer. -/
def c1Step : Except Error Bool × VBinseqWriter :=
  VBinseqWriter.write_nucleotides_quality_paired (fun _ => .ok none) id 3
    [65, 67, 71, 84] [84, 71, 67, 65] [33, 33, 33, 33] [35, 35, 35, 35]
    (VBinseqWriter.new c1Header false)

/-- The finished 192-byte file image of the round-trip failing input. -/
def c1File : List Nat := (VBinseqWriter.finish id c1Step.2).inner

/-- What reading the failing input back actually observes: flag and both
decoded sequences round trip, the primary quality round trips, but the
extended quality comes back as 33,33,33,35. -/
def c1ReadObs : RecordObs :=
  { flag := 3, sdec := [65, 67, 71, 84], xdec := [84, 71, 67, 65],
    squal := [33, 33, 33, 33], xqual := [33, 33, 33, 35] }

set_option maxRecDepth 4096 in
/-- Claim C1: the write succeeds, yet reading the file back yields the
record with extended quality bytes 33,33,33,35 instead of the written
35,35,35,35 — the record iterator slices the qualities column at the
packed-word offset, so even a single paired quality record fails the
round trip. -/
theorem roundtrip_xqual_misaligned :
    c1Step.1 = .ok true ∧
    (MmapReader.new c1File).map (fun r =>
      (MmapReader.read_block_into id r (RecordBlock.new 128)).map (fun t =>
        t.2.2.iterList.map RefRecord.obs)) =
      .ok (.ok [c1ReadObs]) ∧
    [33, 33, 33, 35] ≠ [35, 35, 35, 35] := by
  decide

/-- The packed word count of a sequence never exceeds its base count. -/
theorem encoded_sequence_len_le (len : Nat) : encoded_sequence_len len ≤ len := by
  unfold encoded_sequence_len
  omega

/-- Structural invariant maintained by the raw ingest loop: the lens
column carries one slen and one xlen per flag, every stored slen is
positive (a zero slen stops the loop before pushing), and the qualities
column holds exactly one byte per base of every stored length when the
quality flag is on and stays empty otherwise. -/
def IngestInv (q : Bool) (b : RecordBlock) : Prop :=
  b.lens.length = 2 * b.flags.length ∧
  (∀ i, i < b.flags.length → 1 ≤ b.lens.getD (2 * i) 0) ∧
  b.qualities.length = (if q then b.lens.sum else 0)


set_option maxHeartbeats 1000000 in
/-- One ingest step that appends a record preserves the structural
invariant. -/
theorem ingestStep_inv (bytes : List Nat) (q : Bool) (pos : Nat)
    (b : RecordBlock) {endPos : Nat} {b' : RecordBlock}
    (hInv : IngestInv q b)
    (h : RecordBlock.ingestStep bytes q pos b = .next endPos b') :
    IngestInv q b' := by
  obtain ⟨hlen, hposv, hqual⟩ := hInv
  cases q with
  | false =>
    simp only [RecordBlock.ingestStep, Bool.false_eq_true, if_false] at h
    split at h
    · exact IngestStep.noConfusion h
    · split at h
      · exact IngestStep.noConfusion h
      · split at h
        · exact IngestStep.noConfusion h
        · rename_i hin hslen hend
          cases h
          refine ⟨?_, ?_, ?_⟩
          · simp only [List.length_append, List.length_cons, List.length_nil]
            omega
          · intro i hi
            simp only [List.length_append, List.length_cons,
              List.length_nil] at hi
            by_cases hc : i < b.flags.length
            · rw [List.getD_append _ _ _ _ (by omega)]
              exact hposv i hc
            · have hieq : i = b.flags.length := by omega
              subst hieq
              rw [List.getD_eq_getElem?_getD,
                List.getElem?_append_right (by omega), hlen]
              simpa using Nat.pos_of_ne_zero hslen
          · simp only [Bool.false_eq_true, if_false] at hqual ⊢
            simp [hqual]
  | true =>
    simp only [RecordBlock.ingestStep, if_true] at h
    split at h
    · exact IngestStep.noConfusion h
    · split at h
      · exact IngestStep.noConfusion h
      · split at h
        · exact IngestStep.noConfusion h
        · rename_i hin hslen hend
          cases h
          refine ⟨?_, ?_, ?_⟩
          · simp only [List.length_append, List.length_cons, List.length_nil]
            omega
          · intro i hi
            simp only [List.length_append, List.length_cons,
              List.length_nil] at hi
            by_cases hc : i < b.flags.length
            · rw [List.getD_append _ _ _ _ (by omega)]
              exact hposv i hc
            · have hieq : i = b.flags.length := by omega
              subst hieq
              rw [List.getD_eq_getElem?_getD,
                List.getElem?_append_right (by omega), hlen]
              simpa using Nat.pos_of_ne_zero hslen
          · simp only [if_true] at hqual ⊢
            simp only [List.length_append, List.length_take, List.length_drop,
              List.sum_append, List.sum_cons, List.sum_nil]
            omega

/-- The raw ingest loop preserves the structural invariant at every fuel
and position. -/
theorem ingestLoop_inv (bytes : List Nat) (q : Bool) :
    ∀ fuel pos b b', IngestInv q b →
      RecordBlock.ingestLoop bytes q fuel pos b = .ok b' → IngestInv q b' := by
  intro fuel
  induction fuel with
  | zero =>
    intro pos b b' hInv h
    simp only [RecordBlock.ingestLoop] at h
    cases h
    exact hInv
  | succ fuel ih =>
    intro pos b b' hInv h
    simp only [RecordBlock.ingestLoop] at h
    cases hs : RecordBlock.ingestStep bytes q pos b with
    | stop => rw [hs] at h; cases h; exact hInv
    | fail e => rw [hs] at h; cases h
    | next endPos b2 =>
      rw [hs] at h
      exact ih _ _ _ (ingestStep_inv bytes q pos b hInv hs) h

/-- Over a block without qualities, every yielded record view has an empty
primary quality slice. -/
theorem iterFrom_squal_empty (b : RecordBlock) (hqe : b.qualities = []) :
    ∀ fuel rpos epos r, r ∈ b.iterFrom fuel rpos epos → r.squal = [] := by
  intro fuel
  induction fuel with
  | zero =>
    intro rpos epos r hr
    simp [RecordBlock.iterFrom] at hr
  | succ fuel ih =>
    intro rpos epos r hr
    simp only [RecordBlock.iterFrom] at hr
    split at hr
    · simp only [List.mem_cons] at hr
      rcases hr with rfl | hr
      · simp [RecordBlock.recordAt, hqe]
      · exact ih _ _ _ hr
    · simp at hr

/-- Decomposition of the lens column at a record position: the primary and
extended lengths head the dropped tail. -/
theorem lens_drop_cons (b : RecordBlock)
    (hlen : b.lens.length = 2 * b.flags.length) {rpos : Nat}
    (hrp : rpos < b.flags.length) :
    b.lens.drop (2 * rpos) =
      b.lens.getD (2 * rpos) 0 :: b.lens.getD (2 * rpos + 1) 0 ::
        b.lens.drop (2 * rpos + 2) := by
  have h1 : 2 * rpos < b.lens.length := by omega
  have h2 : 2 * rpos + 1 < b.lens.length := by omega
  rw [List.drop_eq_getElem_cons h1, List.drop_eq_getElem_cons h2,
    List.getD_eq_getElem _ _ h1, List.getD_eq_getElem _ _ h2]

/-- Over a block whose qualities column is non-empty and whose stored
primary lengths are positive and covered by the qualities column, every
yielded record view has a non-empty primary quality slice, even though the
iterator indexes the column with its packed-word offset: the packed chunk
count of each length never exceeds the length itself, so the offset stays
inside the column. -/
theorem iterFrom_squal_nonempty (b : RecordBlock)
    (hlen : b.lens.length = 2 * b.flags.length)
    (hposv : ∀ i, i < b.flags.length → 1 ≤ b.lens.getD (2 * i) 0)
    (hne : b.qualities ≠ []) :
    ∀ fuel rpos epos,
      epos + (b.lens.drop (2 * rpos)).sum ≤ b.qualities.length →
      ∀ r, r ∈ b.iterFrom fuel rpos epos → r.squal ≠ [] := by
  intro fuel
  induction fuel with
  | zero =>
    intro rpos epos hbound r hr
    simp [RecordBlock.iterFrom] at hr
  | succ fuel ih =>
    intro rpos epos hbound r hr
    simp only [RecordBlock.iterFrom] at hr
    split at hr
    case isTrue hrp =>
      have hrp' : rpos < b.flags.length := hrp
      have hdrop := lens_drop_cons b hlen hrp'
      have hsum : (b.lens.drop (2 * rpos)).sum =
          b.lens.getD (2 * rpos) 0 + (b.lens.getD (2 * rpos + 1) 0 +
            (b.lens.drop (2 * rpos + 2)).sum) := by
        rw [hdrop]
        simp [List.sum_cons]
      have hslen := hposv rpos hrp'
      simp only [List.mem_cons] at hr
      rcases hr with rfl | hr
      · have hiempty : b.qualities.isEmpty = false := by
          simpa using hne
        simp only [RecordBlock.recordAt, hiempty, Bool.false_eq_true,
          if_false]
        apply List.ne_nil_of_length_pos
        rw [List.length_take, List.length_drop]
        omega
      · refine ih (rpos + 1) (b.recordAt rpos epos).2 ?_ r hr
        have hs1 := encoded_sequence_len_le (b.lens.getD (2 * rpos) 0)
        have hs2 := encoded_sequence_len_le (b.lens.getD (2 * rpos + 1) 0)
        have h2eq : 2 * (rpos + 1) = 2 * rpos + 2 := by ring
        simp only [RecordBlock.recordAt, h2eq]
        omega
    case isFalse => simp at hr

/-- Claim C10: over any block produced by the raw ingest of a byte buffer
into a fresh record block, every record view yielded by the iterator
reports is_paired exactly when its xlen is positive, and has_quality
exactly when the block's qualities column is non-empty. -/
theorem iter_paired_quality_spec (bytes : List Nat) (q : Bool) (bsz : Nat)
    (b' : RecordBlock)
    (h : (RecordBlock.new bsz).ingest_bytes bytes q = .ok b') :
    ∀ r ∈ b'.iterList,
      (r.is_paired = true ↔ 0 < r.xlen) ∧
      (r.has_quality = true ↔ b'.qualities ≠ []) := by
  have hInv : IngestInv q b' := by
    refine ingestLoop_inv bytes q (bytes.length + 1) 0 _ _ ?_ h
    refine ⟨rfl, ?_, ?_⟩
    · intro i hi
      simp [RecordBlock.new] at hi
    · cases q <;> simp [RecordBlock.new]
  obtain ⟨hlen, hposv, hqual⟩ := hInv
  intro r hr
  simp only [RecordBlock.iterList] at hr
  refine ⟨by simp [RefRecord.is_paired], ?_⟩
  by_cases hqe : b'.qualities = []
  · have hsq := iterFrom_squal_empty b' hqe _ _ _ r hr
    simp [RefRecord.has_quality, hsq, hqe]
  · have hbound : 0 + (b'.lens.drop (2 * 0)).sum ≤ b'.qualities.length := by
      cases q with
      | false =>
        simp only [Bool.false_eq_true, if_false] at hqual
        exact absurd (List.eq_nil_of_length_eq_zero hqual) hqe
      | true =>
        simp only [if_true] at hqual
        simp [hqual]
    have hsq := iterFrom_squal_nonempty b' hlen hposv hqe _ _ _ hbound r hr
    simp [RefRecord.has_quality, hsq, hqe]

/-- One raw block body with a single quality record: flag 7, one base,
unpaired, one quality byte. -/
def c10Bytes : List Nat :=
  leWrite 7 8 ++ leWrite 1 8 ++ leWrite 0 8 ++ leWrite 0 8 ++ [33]

/-- The record block that ingesting c10Bytes with quality on yields. -/
def c10Block : RecordBlock :=
  { index := 0, flags := [7], lens := [1, 0], sequences := [0],
    qualities := [33], block_size := 128 }

/-- The one record view the iterator yields over c10Block. -/
def c10Rec : RefRecord :=
  { index := 0, flag := 7, slen := 1, xlen := 0, sbuf := [0], xbuf := [],
    squal := [33], xqual := [] }

/-- Witness for iter_paired_quality_spec at the concrete one-record
quality block and its yielded view. -/
theorem iter_paired_quality_spec_witness :
    (c10Rec.is_paired = true ↔ 0 < c10Rec.xlen) ∧
    (c10Rec.has_quality = true ↔ c10Block.qualities ≠ []) :=
  iter_paired_quality_spec c10Bytes true 128 c10Block (by decide)
    c10Rec (by decide)

end VBinseq
